import Mathlib

/-!
Verification of the device-control core of `linear_stage_control`
(`ls_control/LinearStageControl.py`), shallowly embedded in Lean 4.

The serial device is modelled by a stream of raw replies (`pending`), and
the wire log of written commands (`sent`).  Python floats are modelled as
exact rationals together with an explicit round-to-nearest-53-bit-significand
operation `rnd53` (IEEE-754 binary64 round-to-nearest, ties-to-even; the
exponent range of binary64 is never exercised by the magnitudes that occur
in the unit conversions, so overflow/subnormals are not modelled).
-/

namespace LinearStage

/-- Round a rational to the nearest integer, ties to even
(Python `round` / `decimal.Decimal.__round__` with `ROUND_HALF_EVEN`). -/
def rndHalfEvenInt (q : ℚ) : ℤ :=
  if q - ⌊q⌋ < 1/2 then ⌊q⌋
  else if 1/2 < q - ⌊q⌋ then ⌊q⌋ + 1
  else if 2 ∣ ⌊q⌋ then ⌊q⌋ else ⌊q⌋ + 1

theorem abs_rndHalfEvenInt_sub_le (q : ℚ) : |(rndHalfEvenInt q : ℚ) - q| ≤ 1/2 := by
  unfold rndHalfEvenInt
  have h0 : (0:ℚ) ≤ q - ⌊q⌋ := by
    have := Int.floor_le q; linarith
  have h1 : q - ⌊q⌋ < 1 := by
    have := Int.lt_floor_add_one q; linarith
  split
  · rw [abs_le]; constructor <;> push_cast <;> linarith
  · split
    · rw [abs_le]; constructor <;> push_cast <;> linarith
    · split <;> (rw [abs_le]; constructor <;> push_cast <;> linarith)

theorem rndHalfEvenInt_eq_of_abs_lt {q : ℚ} {n : ℤ} (h : |q - n| < 1/2) :
    rndHalfEvenInt q = n := by
  rw [abs_lt] at h
  unfold rndHalfEvenInt
  by_cases hle : (n:ℚ) ≤ q
  · have hfl : ⌊q⌋ = n := by
      rw [Int.floor_eq_iff]; constructor <;> push_cast <;> linarith
    rw [hfl]
    have : q - (n:ℚ) < 1/2 := by linarith
    split
    · rfl
    · exfalso; push_cast at *; linarith
  · push_neg at hle
    have hfl : ⌊q⌋ = n - 1 := by
      rw [Int.floor_eq_iff]; constructor <;> push_cast <;> linarith
    rw [hfl]
    have hgt : 1/2 < q - ((n:ℚ) - 1) := by linarith
    split
    · exfalso; push_cast at *; linarith
    · split
      · omega
      · exfalso; rename_i hnot; push_cast at hnot; linarith

theorem rndHalfEvenInt_intCast (n : ℤ) : rndHalfEvenInt (n : ℚ) = n := by
  unfold rndHalfEvenInt
  rw [Int.floor_intCast]
  split
  · rfl
  · exfalso; rename_i h; simp at h

/-- Round a rational to the nearest number with a 53-bit significand
(round-to-nearest, ties-to-even).  This is the rounding performed by every
IEEE-754 binary64 arithmetic operation, for results inside the normal
exponent range (always the case for the magnitudes arising in the
step/millimeter conversions). -/
def rnd53 (q : ℚ) : ℚ :=
  if q = 0 then 0
  else
    (rndHalfEvenInt (q * 2 ^ (52 - Int.log 2 |q|)) : ℚ) * 2 ^ (Int.log 2 |q| - 52)

theorem rnd53_zero : rnd53 0 = 0 := by simp [rnd53]

/-- Half-ulp relative error bound for binary64 rounding. -/
theorem abs_rnd53_sub_le (q : ℚ) : |rnd53 q - q| ≤ |q| / 2 ^ 53 := by
  by_cases hq : q = 0
  · simp [hq, rnd53]
  · unfold rnd53
    rw [if_neg hq]
    set e : ℤ := Int.log 2 |q| with he
    have habs : (0:ℚ) < |q| := abs_pos.mpr hq
    have hlow : (2:ℚ) ^ e ≤ |q| := by
      have := Int.zpow_log_le_self (R := ℚ) (b := 2) (by norm_num) habs
      simpa [he] using this
    have h2 : (2:ℚ) ≠ 0 := by norm_num
    have hsplit : (2:ℚ) ^ (52 - e) * 2 ^ (e - 52) = 1 := by
      rw [← zpow_add₀ h2]; norm_num
    have hrw : (rndHalfEvenInt (q * 2 ^ (52 - e)) : ℚ) * 2 ^ (e - 52) - q
        = ((rndHalfEvenInt (q * 2 ^ (52 - e)) : ℚ) - q * 2 ^ (52 - e)) * 2 ^ (e - 52) := by
      rw [sub_mul, mul_assoc, hsplit, mul_one]
    rw [hrw, abs_mul]
    have hpos : (0:ℚ) < (2:ℚ) ^ (e - 52) := zpow_pos (by norm_num) _
    rw [abs_of_pos hpos]
    have hbound := abs_rndHalfEvenInt_sub_le (q * 2 ^ (52 - e))
    have heq1 : (1/2 : ℚ) * 2 ^ (e - 52) = 2 ^ e * (1 / 2 ^ 53) := by
      rw [show e - 52 = e + (-53 : ℤ) + 1 by ring, zpow_add₀ h2, zpow_add₀ h2]
      have hn : (2:ℚ) ^ (-53 : ℤ) = 1 / 2 ^ 53 := by norm_num
      rw [hn, zpow_one]; ring
    calc |(rndHalfEvenInt (q * 2 ^ (52 - e)) : ℚ) - q * 2 ^ (52 - e)| * 2 ^ (e - 52)
        ≤ (1/2) * 2 ^ (e - 52) :=
          mul_le_mul_of_nonneg_right hbound (le_of_lt hpos)
      _ = 2 ^ e * (1 / 2 ^ 53) := heq1
      _ ≤ |q| * (1 / 2 ^ 53) := by
          apply mul_le_mul_of_nonneg_right hlow
          positivity
      _ = |q| / 2 ^ 53 := by ring

/-- Nonnegative inputs round to nonnegative values. -/
theorem rnd53_nonneg {q : ℚ} (h : 0 ≤ q) : 0 ≤ rnd53 q := by
  have hb := abs_rnd53_sub_le q
  rw [abs_le] at hb
  have h1 : -(|q| / 2 ^ 53) ≤ rnd53 q - q := hb.1
  rw [abs_of_nonneg h] at h1
  nlinarith [h1]

/-- Nonnegative integers below `2 ^ 53` are exactly representable in binary64,
so `rnd53` fixes them. -/
theorem rnd53_natCast {n : ℕ} (hn : 0 < n) (h53 : (n : ℚ) < 2 ^ 53) :
    rnd53 (n : ℚ) = n := by
  have hq : (n : ℚ) ≠ 0 := by positivity
  unfold rnd53
  rw [if_neg hq]
  set e : ℤ := Int.log 2 |(n:ℚ)| with he
  have habs : |(n:ℚ)| = (n:ℚ) := abs_of_pos (by positivity)
  have he0 : 0 ≤ e := by
    rw [he, habs, Int.log_of_one_le_right 2 (Nat.one_le_cast.mpr hn)]
    positivity
  have hlow : (2:ℚ) ^ e ≤ (n:ℚ) := by
    have := Int.zpow_log_le_self (R := ℚ) (b := 2) (by norm_num) (r := |(n:ℚ)|)
      (by positivity)
    rw [habs] at this
    simpa [he] using this
  have he53 : e < 53 := by
    have h1 : (2:ℚ) ^ e < (2:ℚ) ^ (53:ℤ) := lt_of_le_of_lt hlow (by exact_mod_cast h53)
    exact (zpow_lt_zpow_iff_right₀ (by norm_num)).mp h1
  -- the scaled value is an integer, so the rounding is exact
  obtain ⟨k, hk⟩ : ∃ k : ℕ, 52 - e = (k : ℤ) := ⟨(52 - e).toNat, by omega⟩
  have hsc : (n:ℚ) * 2 ^ (52 - e) = ((n * 2 ^ k : ℕ) : ℚ) := by
    rw [hk, zpow_natCast]
    push_cast
    ring
  rw [hsc]
  have : rndHalfEvenInt ((n * 2 ^ k : ℕ) : ℚ) = (n * 2 ^ k : ℕ) := by
    exact_mod_cast rndHalfEvenInt_intCast ((n * 2 ^ k : ℕ) : ℤ)
  rw [this]
  push_cast
  rw [mul_assoc, ← zpow_natCast (2:ℚ) k, ← hk, ← zpow_add₀ (by norm_num : (2:ℚ) ≠ 0)]
  norm_num

/-!
## Unit Converter (`steps_to_mm` / `mm_to_steps`)

Faithful translation of

```
def steps_to_mm(self, steps):
    steps_per_turn = self._substeps * 200
    return (1.25/steps_per_turn) * steps

def mm_to_steps(self, mm):
    steps_per_turn = self._substeps * 200
    return int(round(Decimal((steps_per_turn/1.25) * mm)))
```

`1.25` is exactly representable in binary64 (`5/4`), integer operands up to
`50000 * 200` convert to binary64 exactly, and each float division and
multiplication performs one binary64 rounding, modelled by `rnd53`.
`Decimal(float)` is exact, and Python's `round` on a `Decimal` rounds half
to even (`rndHalfEvenInt`).
-/

def steps_to_mm (substeps : ℕ) (steps : ℚ) : ℚ :=
  let steps_per_turn : ℚ := (substeps : ℚ) * 200
  rnd53 (rnd53 (5/4 / steps_per_turn) * steps)

def mm_to_steps (substeps : ℕ) (mm : ℚ) : ℤ :=
  let steps_per_turn : ℚ := (substeps : ℚ) * 200
  rndHalfEvenInt (rnd53 (rnd53 (steps_per_turn / (5/4)) * mm))

/-- The step → mm → step round trip is exact for any microstep setting up to
16 and any step count up to 50000: the three binary64 roundings perturb the
value by less than half a step. -/
theorem mm_roundtrip (t : ℕ) (ht1 : 0 < t) (ht2 : t ≤ 16)
    (steps : ℕ) (hs : steps ≤ 50000) :
    mm_to_steps t (steps_to_mm t steps) = steps := by
  simp only [steps_to_mm, mm_to_steps]
  set S : ℚ := (steps : ℚ) with hSdef
  have hS0 : 0 ≤ S := by positivity
  have hS5 : S ≤ 50000 := by rw [hSdef]; exact_mod_cast hs
  set T : ℚ := (t : ℚ) * 200 with hTdef
  have htq : (0:ℚ) < (t:ℚ) := by exact_mod_cast ht1
  set g : ℚ := 5/4 / T with hgdef
  have hg0 : 0 < g := by rw [hgdef, hTdef]; positivity
  set A : ℚ := 160 * (t : ℚ) with hAdef
  have hA0 : (0:ℚ) ≤ A := by positivity
  have hAg : A * g = 1 := by
    rw [hAdef, hgdef, hTdef]
    field_simp
    ring
  -- the backward conversion factor 200*t/1.25 = 160*t is an exact binary64 value
  have hback : rnd53 (T / (5/4)) = A := by
    have h1 : T / (5/4) = ((160 * t : ℕ) : ℚ) := by
      rw [hTdef]; push_cast; ring
    have h2 : rnd53 (((160 * t : ℕ) : ℚ)) = ((160 * t : ℕ) : ℚ) := by
      apply rnd53_natCast (by omega)
      calc ((160 * t : ℕ) : ℚ) ≤ ((160 * 16 : ℕ) : ℚ) := by
            exact_mod_cast Nat.mul_le_mul_left 160 ht2
        _ < 2 ^ 53 := by norm_num
    rw [h1, h2, hAdef]; push_cast; ring
  rw [hback]
  set u : ℚ := 1 / 2 ^ 53 with hudef
  have hu0 : (0:ℚ) < u := by rw [hudef]; norm_num
  have hu1 : u ≤ 1 := by rw [hudef]; norm_num
  set c : ℚ := rnd53 g with hcdef
  have hc0 : 0 ≤ c := rnd53_nonneg hg0.le
  have t3 : |c - g| ≤ g * u := by
    have := abs_rnd53_sub_le g
    rw [abs_of_pos hg0] at this
    rw [hudef]; rw [hcdef]
    calc |rnd53 g - g| ≤ g / 2 ^ 53 := this
      _ = g * (1 / 2 ^ 53) := by ring
  have b1 : c ≤ 2 * g := by
    have := (abs_le.mp t3).2
    nlinarith
  set mm : ℚ := rnd53 (c * S) with hmmdef
  have hcS0 : 0 ≤ c * S := mul_nonneg hc0 hS0
  have hmm0 : 0 ≤ mm := rnd53_nonneg hcS0
  have t2 : |mm - c * S| ≤ c * S * u := by
    have := abs_rnd53_sub_le (c * S)
    rw [abs_of_nonneg hcS0] at this
    rw [hudef, hmmdef]
    calc |rnd53 (c*S) - c*S| ≤ c * S / 2 ^ 53 := this
      _ = c * S * (1 / 2 ^ 53) := by ring
  have b2 : mm ≤ 4 * (g * S) := by
    have h := (abs_le.mp t2).2
    nlinarith [mul_le_mul_of_nonneg_right b1 hS0]
  set z : ℚ := rnd53 (A * mm) with hzdef
  have hAmm0 : 0 ≤ A * mm := mul_nonneg hA0 hmm0
  have t1 : |z - A * mm| ≤ A * mm * u := by
    have := abs_rnd53_sub_le (A * mm)
    rw [abs_of_nonneg hAmm0] at this
    rw [hudef, hzdef]
    calc |rnd53 (A*mm) - A*mm| ≤ A * mm / 2 ^ 53 := this
      _ = A * mm * (1 / 2 ^ 53) := by ring
  -- triangle-inequality decomposition of the total error
  have hdecomp : z - S = (z - A*mm) + A*(mm - c*S) + (A*S)*(c - g) := by
    linear_combination S * hAg
  have tri : |z - S| ≤ A*mm*u + A*(c*S*u) + A*S*(g*u) := by
    calc |z - S| = |(z - A*mm) + A*(mm - c*S) + (A*S)*(c - g)| := by rw [hdecomp]
      _ ≤ |(z - A*mm) + A*(mm - c*S)| + |(A*S)*(c - g)| := abs_add _ _
      _ ≤ |z - A*mm| + |A*(mm - c*S)| + |(A*S)*(c - g)| := by
          have := abs_add (z - A*mm) (A*(mm - c*S))
          linarith
      _ ≤ A*mm*u + A*(c*S*u) + A*S*(g*u) := by
          have e2 : |A*(mm - c*S)| ≤ A*(c*S*u) := by
            rw [abs_mul, abs_of_nonneg hA0]
            exact mul_le_mul_of_nonneg_left t2 hA0
          have e3 : |(A*S)*(c - g)| ≤ A*S*(g*u) := by
            rw [abs_mul, abs_of_nonneg (mul_nonneg hA0 hS0)]
            exact mul_le_mul_of_nonneg_left t3 (mul_nonneg hA0 hS0)
          linarith [t1]
  have hsum : A*mm*u + A*(c*S*u) + A*S*(g*u) ≤ 7 * (S * u) := by
    have e1 : A*mm*u ≤ A*(4*(g*S))*u :=
      mul_le_mul_of_nonneg_right (mul_le_mul_of_nonneg_left b2 hA0) hu0.le
    have e2 : A*(c*S*u) ≤ A*((2*g)*S*u) := by
      apply mul_le_mul_of_nonneg_left _ hA0
      exact mul_le_mul_of_nonneg_right
        (mul_le_mul_of_nonneg_right b1 hS0) hu0.le
    have k1 : A*(4*(g*S))*u = 4*(S*u) := by linear_combination (4*S*u) * hAg
    have k2 : A*((2*g)*S*u) = 2*(S*u) := by linear_combination (2*S*u) * hAg
    have k3 : A*S*(g*u) = S*u := by linear_combination (S*u) * hAg
    linarith
  have hfin : |z - S| < 1/2 := by
    have h1 : 7 * (S * u) ≤ 7 * (50000 * u) := by nlinarith
    have h2 : 7 * (50000 * u) < 1/2 := by rw [hudef]; norm_num
    exact lt_of_le_of_lt (le_trans tri hsum) (lt_of_le_of_lt h1 h2)
  have : rndHalfEvenInt z = (steps : ℤ) := by
    apply rndHalfEvenInt_eq_of_abs_lt
    rw [show ((steps:ℤ):ℚ) = S by rw [hSdef]; push_cast; ring]
    exact hfin
  exact this

/-- **C1.** For every `steps` in `[0, 50000]` and every `substeps` in
`{1,2,4,8,16}`, `mm_to_steps (steps_to_mm steps)` returns `steps` exactly:
the binary64 forward conversion, the binary64 backward conversion, and the
final half-to-even decimal rounding compose to the identity. -/
theorem c1_unit_roundtrip (steps substeps : ℕ) (hs : steps ≤ 50000)
    (hsub : substeps = 1 ∨ substeps = 2 ∨ substeps = 4 ∨ substeps = 8 ∨ substeps = 16) :
    mm_to_steps substeps (steps_to_mm substeps steps) = steps := by
  rcases hsub with h | h | h | h | h <;> subst h <;>
    exact mm_roundtrip _ (by norm_num) (by norm_num) steps hs

/-- Witness for C1 at `steps = 1600`, `substeps = 8`
(one full turn of the spindle, 1.25 mm). -/
theorem c1_unit_roundtrip_witness :
    1600 ≤ 50000 ∧ mm_to_steps 8 (steps_to_mm 8 1600) = 1600 :=
  ⟨by norm_num, c1_unit_roundtrip 1600 8 (by norm_num) (by norm_num)⟩

/-!
## Device-control state machine

The mutable state of a `LinearStageControl` object together with its serial
environment.  The pyserial handle is abstracted to `port_set` (the port path
is not `None`), `port_open`, the stream `pending` of raw replies the device
will deliver to successive reads (an empty string models a read timeout),
and the wire log `sent` of messages written (without the `\r` terminator,
which `query` always appends).  The `_is_querying` busy-wait flag of the
`atomic_section` decorator is omitted: in the sequential semantics modelled
here it is always `False` on entry to `query` and reset on exit, so it has
no observable effect.  Logging calls are likewise omitted.
-/

inductive PyErr where
  | connectionError
  | timeoutError
  | runtimeError
  | motorNotReferencedError
  | indexError
  | valueError
  | typeError
deriving DecidableEq, Repr

structure LS where
  context_depth : ℤ
  port_set : Bool
  port_open : Bool
  connection_error : Bool
  reference_changed : Bool
  reference_point : String
  substeps : ℕ
  status : ℕ
  positioning_error : ℕ
  pending : List String
  sent : List String
deriving DecidableEq, Repr

/-- The state directly after `__init__` with an explicitly given port name
(`portname ≠ 'auto'`, so no discovery is attempted): `_context_depth = 0`,
`_substeps = 8`, `_reference_point = 'near'`, `_reference_changed = False`,
`_status = 1`, `_positioning_error = 0`. -/
def initLS : LS :=
  { context_depth := 0
    port_set := true
    port_open := false
    connection_error := false
    reference_changed := false
    reference_point := "near"
    substeps := 8
    status := 1
    positioning_error := 0
    pending := []
    sent := [] }

/-- `__enter__`.  `openOk` is the environment's verdict on the physical
`serial.Serial.open()` call (`false` = it raises `ConnectionError`).
On success the result `true` models returning `self`; in the
connection-error branch the method returns `None` (modelled `false`)
without touching depth or port. -/
def enterCtx (openOk : Bool) (s : LS) : Except PyErr Bool × LS :=
  if !s.connection_error then
    if s.context_depth = 0 ∧ s.port_set ∧ !s.port_open then
      if openOk then
        let s1 := {s with port_open := true}
        (.ok true, {s1 with context_depth := s1.context_depth + 1})
      else
        -- `except ConnectionError`: mark faulted and re-raise; depth untouched
        (.error .connectionError, {s with connection_error := true})
    else
      (.ok true, {s with context_depth := s.context_depth + 1})
  else
    (.ok false, s)

/-- `__exit__(exc, value, trace)`.  Always decrements the depth, closes the
port on reaching zero, and returns `True`, so any exception raised in the
`with` body is suppressed.  The `exc` branch only logs: its guard
`exc is type(ConnectionError)` compares an exception class against the
metaclass `type` and is therefore never satisfied by a raised exception, so
no state is changed there. -/
def exitCtx (_exc : Bool) (s : LS) : Bool × LS :=
  let s1 := {s with context_depth := s.context_depth - 1}
  if s1.context_depth = 0 then (true, {s1 with port_open := false})
  else (true, s1)

/-- `close_port`. -/
def close_port (s : LS) : LS :=
  {s with port_open := false}

/-- Python's string-whitespace set `" \t\n\r\v\f"` (`str.strip()`). -/
def pyWhitespace (c : Char) : Bool :=
  c = ' ' ∨ c = '\t' ∨ c = '\n' ∨ c = '\r' ∨ c = '\x0b' ∨ c = '\x0c'

/-- Python `str.strip()`: remove leading and trailing whitespace. -/
def pyStrip (t : String) : String :=
  ⟨((t.data.dropWhile pyWhitespace).reverse.dropWhile pyWhitespace).reverse⟩

def splitCharAux (sep : Char) : List Char → List (List Char)
  | [] => [[]]
  | c :: cs =>
    match splitCharAux sep cs with
    | [] => [[]]
    | g :: gs => if c = sep then [] :: g :: gs else (c :: g) :: gs

/-- Python `str.split(sep)` for a single-character separator (the only form
the source uses: `split('$')`, `split('g')`). -/
def pySplitChar (sep : Char) (t : String) : List String :=
  (splitCharAux sep t.data).map (fun l => String.mk l)

/-- `query(message)` under the `error_outside_context` and `atomic_section`
decorators: fails with `RuntimeError` at depth 0; if the connection is
faulted it raises `ConnectionError` without writing or reading; otherwise
it writes `message` (+`\r`) to the wire, reads one raw reply, raises
`TimeoutError` on a zero-length read, and returns the stripped reply. -/
def query (message : String) (s : LS) : Except PyErr String × LS :=
  if s.context_depth = 0 then (.error .runtimeError, s)
  else if !s.connection_error then
    match s.pending with
    | [] => (.error .timeoutError, {s with sent := s.sent ++ [message]})
    | a :: rest =>
      let s1 := {s with sent := s.sent ++ [message], pending := rest}
      if a.length = 0 then (.error .timeoutError, s1)
      else (.ok (pyStrip a), s1)
  else
    (.error .connectionError, s)

/-- `command(message)`: a `query` whose reply is classified by the
trailing-`?` rule.  `ans[-1]` on an (impossible for a compliant device)
whitespace-only reply raises `IndexError`. -/
def command (message : String) (s : LS) : Except PyErr Bool × LS :=
  match query message s with
  | (.error e, s1) => (.error e, s1)
  | (.ok ans, s1) =>
    if ans.isEmpty then (.error .indexError, s1)
    else if ans.back = '?' then (.ok false, s1)
    else (.ok true, s1)

/-- Run a list of `command`s in order, discarding their boolean results
(as all motion helpers in the source do), propagating exceptions. -/
def commandSeq (msgs : List String) (s : LS) : Except PyErr Unit × LS :=
  match msgs with
  | [] => (.ok (), s)
  | m :: ms =>
    match command m s with
    | (.error e, s1) => (.error e, s1)
    | (.ok _, s1) => commandSeq ms s1

/-! ### Numeric parsing (`int(x)` / `int(x, 16)` on device reply fragments) -/

def hexDigitVal (c : Char) : Option ℕ :=
  if '0' ≤ c ∧ c ≤ '9' then some (c.toNat - '0'.toNat)
  else if 'a' ≤ c ∧ c ≤ 'f' then some (c.toNat - 'a'.toNat + 10)
  else if 'A' ≤ c ∧ c ≤ 'F' then some (c.toNat - 'A'.toNat + 10)
  else none

def parseHexAux (l : List Char) (acc : ℕ) : Option ℕ :=
  match l with
  | [] => some acc
  | c :: cs =>
    match hexDigitVal c with
    | none => none
    | some d => parseHexAux cs (acc * 16 + d)

/-- `int(x, 16)` on the digit strings the controller produces
(`none` = `ValueError`).  Signs, `0x` prefixes and underscores, which
Python would also accept but the device never sends, are not modelled. -/
def parseHexStr (t : String) : Option ℕ :=
  if t.isEmpty then none else parseHexAux t.toList 0

def decDigitVal (c : Char) : Option ℕ :=
  if '0' ≤ c ∧ c ≤ '9' then some (c.toNat - '0'.toNat) else none

def parseDecAux (l : List Char) (acc : ℕ) : Option ℕ :=
  match l with
  | [] => some acc
  | c :: cs =>
    match decDigitVal c with
    | none => none
    | some d => parseDecAux cs (acc * 10 + d)

/-- `int(x)` on an optionally `-`-signed decimal digit string. -/
def parseIntStr (t : String) : Option ℤ :=
  match t.toList with
  | [] => none
  | '-' :: rest =>
    if rest.isEmpty then none
    else (parseDecAux rest 0).map (fun n => -(n : ℤ))
  | l => (parseDecAux l 0).map (fun n => (n : ℤ))

/-! ### Status and referencing queries -/

/-- `is_referenced`: queries `#1:is_referenced`; the motor counts as
referenced when the reply's last character is `'1'` **and** the local
`_reference_changed` flag is clear. -/
def is_referenced (s : LS) : Except PyErr Bool × LS :=
  match query "#1:is_referenced" s with
  | (.error e, s1) => (.error e, s1)
  | (.ok ans, s1) =>
    if ans.isEmpty then (.error .indexError, s1)
    else (.ok (ans.back = '1' ∧ s1.reference_changed = false : Bool), s1)

/-- `read_substeps`: queries `#1Zg` and stores
`int(reply.split('g')[-1].strip())` in `_substeps`. -/
def read_substeps (s : LS) : Except PyErr Unit × LS :=
  match query "#1Zg" s with
  | (.error e, s1) => (.error e, s1)
  | (.ok ans, s1) =>
    match parseIntStr (pyStrip ((pySplitChar 'g' ans).getLastD "")) with
    | none => (.error .valueError, s1)
    | some v => (.ok (), {s1 with substeps := v.toNat})

/-- Decoding of a (stripped, nonempty) `#1$` reply: a trailing `?` means the
command was rejected and no status is available (`none`); otherwise the
trailing 3 characters of the last `$`-separated field are parsed as
hexadecimal. -/
def decodeStatus (tmp : String) : Except PyErr (Option ℕ) :=
  if tmp.back = '?' then .ok none
  else
    let field := (pySplitChar '$' tmp).getLastD ""
    let last3 := field.drop (field.length - 3)
    match parseHexStr last3 with
    | none => .error .valueError
    | some v => .ok (some v)

/-- `fetch_status`: queries `#1$`; unless the reply ends in `?`, masks the
decoded value to its low 4 bits, stores it in `_status`, and stores bit 2 in
`_positioning_error`; a rejected reply leaves both fields untouched and
returns `None`. -/
def fetch_status (s : LS) : Except PyErr (Option ℕ) × LS :=
  match query "#1$" s with
  | (.error e, s1) => (.error e, s1)
  | (.ok tmp, s1) =>
    if tmp.isEmpty then (.error .indexError, s1)
    else
      match decodeStatus tmp with
      | .error e => (.error e, s1)
      | .ok none => (.ok none, s1)
      | .ok (some v) =>
        let st := v &&& 0xF
        (.ok (some st), {s1 with status := st, positioning_error := (st &&& 4) >>> 2})

/-- `is_control_ready`: `True` iff `fetch_status` produced a value that is
truthy (non-`None`, nonzero) with bit 0 set. -/
def is_control_ready (s : LS) : Except PyErr Bool × LS :=
  match fetch_status s with
  | (.error e, s1) => (.error e, s1)
  | (.ok none, s1) => (.ok false, s1)
  | (.ok (some n), s1) => (.ok (n ≠ 0 ∧ n &&& 1 ≠ 0 : Bool), s1)

/-- `has_positioning_error`: refreshes the status and reports the stored
`_positioning_error` flag. -/
def has_positioning_error (s : LS) : Except PyErr Bool × LS :=
  match fetch_status s with
  | (.error e, s1) => (.error e, s1)
  | (.ok _, s1) => (.ok (s1.positioning_error ≠ 0 : Bool), s1)

/-- `clear_positioning_error(reset_position)`: clears the local flag, then
either zeroes the position register (`#1D0`) or reads the position (`#1C`)
and rewrites it (`#1D<pos>`), which clears the controller-side error. -/
def clear_positioning_error (reset_position : Bool) (s : LS) :
    Except PyErr Unit × LS :=
  let s0 := {s with positioning_error := 0}
  if reset_position then
    match query "#1D0" s0 with
    | (.error e, s1) => (.error e, s1)
    | (.ok _, s1) => (.ok (), s1)
  else
    match query "#1C" s0 with
    | (.error e, s1) => (.error e, s1)
    | (.ok ans, s1) =>
      match query ("#1D" ++ ans.drop 2) s1 with
      | (.error e, s2) => (.error e, s2)
      | (.ok _, s2) => (.ok (), s2)

/-- The polling loop of `wait_movement`: fetch the status until bit 0
(ready) or bit 2 (error) is set; a `None` status would hit `None & 1` and
raise `TypeError`.  Each iteration consumes one pending reply (or raises),
so `fuel = pending.length + 1` makes the fuel-exhaustion branch
unreachable; it conservatively mirrors the empty-stream `TimeoutError`. -/
def waitLoop : ℕ → LS → Except PyErr ℕ × LS
  | 0, s => (.error .timeoutError, s)
  | fuel + 1, s =>
    match fetch_status s with
    | (.error e, s1) => (.error e, s1)
    | (.ok none, s1) => (.error .typeError, s1)
    | (.ok (some st), s1) =>
      if st &&& 1 = 0 ∧ st &&& 4 = 0 then waitLoop fuel s1
      else (.ok st, s1)

/-- `wait_movement`: poll until ready or positioning error; afterwards query
the error flag once more (`has_positioning_error` performs its own status
fetch); if it is set, log a warning and set `_reference_changed` — the
error is **not** cleared (`clear_positioning_error` is commented out) and
no further command is sent. -/
def wait_movement (s : LS) : Except PyErr Unit × LS :=
  match waitLoop (s.pending.length + 1) s with
  | (.error e, s1) => (.error e, s1)
  | (.ok _, s1) =>
    match has_positioning_error s1 with
    | (.error e, s2) => (.error e, s2)
    | (.ok b, s2) =>
      if b then (.ok (), {s2 with reference_changed := true})
      else (.ok (), s2)

/-! ### Motion commands -/

/-- `stop`: immediate stop `#1S`. -/
def stop (s : LS) : Except PyErr Unit × LS :=
  match command "#1S" s with
  | (.error e, s1) => (.error e, s1)
  | (.ok _, s1) => (.ok (), s1)

/-- `stop_soft`: ramped stop `#1S1`. -/
def stop_soft (s : LS) : Except PyErr Unit × LS :=
  match command "#1S1" s with
  | (.error e, s1) => (.error e, s1)
  | (.ok _, s1) => (.ok (), s1)

/-- `set_reference_point(reference)`: stores the new reference side and
sets `_reference_changed` (the motor must be referenced again). -/
def set_reference_point (reference : String) (s : LS) : LS :=
  {s with reference_point := reference, reference_changed := true}

/-- `do_referencing`: reference-run mode, limit-switch backoff behaviour,
direction per reference point, seek speed, start; afterwards the
`_reference_changed` flag is cleared. -/
def do_referencing (s : LS) : Except PyErr Unit × LS :=
  match commandSeq ["#1p4", "#1l5154",
      (if s.reference_point = "near" then "#1d1" else "#1d0"),
      "#1o4000", "#1A"] s with
  | (.error e, s1) => (.error e, s1)
  | (.ok _, s1) => (.ok (), {s1 with reference_changed := false})

/-- `move_relative(steps, speed)`: rejected silently (log only) when
`|steps| > 50000`; otherwise direction, relative mode, speed, step count,
start. -/
def move_relative (steps : ℤ) (speed : ℤ) (s : LS) : Except PyErr Unit × LS :=
  if 50000 < |steps| then (.ok (), s)
  else
    commandSeq [(if s.reference_point = "far" then "#1d1" else "#1d0"),
      "#1p1", "#1o" ++ toString speed, "#1s" ++ toString steps, "#1A"] s

/-- `move_absolute(steps, speed)`: first checks `is_referenced()` (a wire
query!) and silently returns when unreferenced; then silently returns when
`|steps| > 50000`; otherwise shifts the coordinate by -50000 unless the
reference point is `'far'` and sends absolute mode, speed, target, start. -/
def move_absolute (steps : ℤ) (speed : ℤ) (s : LS) : Except PyErr Unit × LS :=
  match is_referenced s with
  | (.error e, s1) => (.error e, s1)
  | (.ok ref, s1) =>
    if !ref then (.ok (), s1)
    else if 50000 < |steps| then (.ok (), s1)
    else
      let steps1 := if s1.reference_point ≠ "far" then steps - 50000 else steps
      commandSeq ["#1p2", "#1o" ++ toString speed, "#1s" ++ toString steps1,
        "#1A"] s1

/-- `move_relative_mm(distance_mm, speed)`: unit conversion then
`move_relative`. -/
def move_relative_mm (distance_mm : ℚ) (speed : ℚ) (s : LS) :
    Except PyErr Unit × LS :=
  move_relative (mm_to_steps s.substeps distance_mm)
    (mm_to_steps s.substeps speed) s

/-- `move_absolute_mm(position_mm, speed)`: raises `MotorNotReferencedError`
when unreferenced; otherwise unit conversion then `move_absolute` (whose own
`is_referenced` check runs again). -/
def move_absolute_mm (position_mm : ℚ) (speed : ℚ) (s : LS) :
    Except PyErr Unit × LS :=
  match is_referenced s with
  | (.error e, s1) => (.error e, s1)
  | (.ok ref, s1) =>
    if !ref then (.error .motorNotReferencedError, s1)
    else
      move_absolute (mm_to_steps s1.substeps position_mm)
        (mm_to_steps s1.substeps speed) s1

/-- `move_inf_start(dest, speed)`: continuous jog. -/
def move_inf_start (dest : ℤ) (speed : ℤ) (s : LS) : Except PyErr Unit × LS :=
  commandSeq ["#1d" ++ toString dest, "#1p5", "#1o" ++ toString speed,
    "#1A"] s

/-- `get_position`: reads `#1C`, strips the 2-character echo prefix and
parses the signed position; `'near'` convention shifts by +50000. -/
def get_position (s : LS) : Except PyErr ℤ × LS :=
  match query "#1C" s with
  | (.error e, s1) => (.error e, s1)
  | (.ok ans, s1) =>
    match parseIntStr (ans.drop 2) with
    | none => (.error .valueError, s1)
    | some real_pos =>
      if s1.reference_point = "far" then (.ok real_pos, s1)
      else (.ok (real_pos + 50000), s1)

/-- `set_soft_ramp`: a `with self:` block around four ramp commands.
`__exit__` returns `True`, so transport errors raised by the commands are
swallowed and only `__enter__` can fail. -/
def set_soft_ramp (openOk : Bool) (s : LS) : Except PyErr Unit × LS :=
  match enterCtx openOk s with
  | (.error e, s1) => (.error e, s1)
  | (.ok _, s1) =>
    match commandSeq ["#1:ramp_mode=+1", "#1:decelquick=+3000000",
        "#1:accel=+10000", "#1:decel=+10000"] s1 with
    | (.error _, s2) => (.ok (), (exitCtx true s2).2)
    | (.ok _, s2) => (.ok (), (exitCtx false s2).2)

/-- `set_quick_ramp`: as `set_soft_ramp` with the trapezoidal profile. -/
def set_quick_ramp (openOk : Bool) (s : LS) : Except PyErr Unit × LS :=
  match enterCtx openOk s with
  | (.error e, s1) => (.error e, s1)
  | (.ok _, s1) =>
    match commandSeq ["#1:ramp_mode=+0", "#1:decelquick=+3000000",
        "#1:accel=+50000", "#1:decel=+50000"] s1 with
    | (.error _, s2) => (.ok (), (exitCtx true s2).2)
    | (.ok _, s2) => (.ok (), (exitCtx false s2).2)

/-- `reset_connection` (decorated `error_inside_context`): clears the
faulted flag, then probes the device inside a `with self:` block.  Because
`__exit__` suppresses body exceptions, only a failure of `__enter__` itself
reaches the `except` clause. -/
def reset_connection (openOk : Bool) (s : LS) : Except PyErr Bool × LS :=
  if s.context_depth ≠ 0 then (.error .runtimeError, s)
  else
    let s0 := {s with connection_error := false}
    match enterCtx openOk s0 with
    | (.error _, s1) => (.ok false, {s1 with connection_error := true})
    | (.ok _, s1) =>
      match is_control_ready s1 with
      | (.error _, s2) => (.ok true, (exitCtx true s2).2)
      | (.ok _, s2) => (.ok true, (exitCtx false s2).2)

/-!
## Claim theorems
-/

/-- The scoped-acquisition invariant: the physical port is open iff the
nesting depth is positive. -/
def portInv (s : LS) : Prop := s.port_open = true ↔ 0 < s.context_depth

/-- **C2.** The scoped-acquisition discipline maintains "port open iff
depth > 0": both `__enter__` (with either outcome of the physical open) and
`__exit__` preserve the invariant, for any state whose port path is set or
whose connection is already faulted — precisely the states reachable from
`__init__`.  Concretely from the initial state: after enter-enter-exit the
port is still open, after the second exit it is closed, and an exception
raised in the innermost scope (suppressed by `__exit__`, which returns
`True`) still leaves the port closed after the outermost exit. -/
theorem c2_scoped_acquisition (s : LS) (hinv : portInv s)
    (hps : s.port_set = true ∨ s.connection_error = true) :
    ((∀ ok, portInv (enterCtx ok s).2) ∧ (∀ e, portInv (exitCtx e s).2)) ∧
    (exitCtx false (enterCtx true (enterCtx true initLS).2).2).2.port_open = true ∧
    (exitCtx false (exitCtx false (enterCtx true (enterCtx true initLS).2).2).2).2.port_open
      = false ∧
    (exitCtx false (exitCtx true (enterCtx true (enterCtx true initLS).2).2).2).2.port_open
      = false := by
  refine ⟨⟨?_, ?_⟩, by rfl, by rfl, by rfl⟩
  · intro ok
    obtain ⟨d, ps, po, ce, rc, rp, ss, st, pe, pen, snt⟩ := s
    unfold portInv at hinv ⊢
    unfold enterCtx
    dsimp only at hinv hps ⊢
    cases ce
    · cases po
      · cases ps
        · rcases hps with h | h <;> simp at h
        · by_cases hd : d = 0
          · subst hd; cases ok <;> simp_all
          · cases ok <;> simp_all <;> omega
      · by_cases hd : d = 0
        · subst hd; simp_all
        · cases ok <;> simp_all <;> omega
    · simpa using hinv
  · intro e
    obtain ⟨d, ps, po, ce, rc, rp, ss, st, pe, pen, snt⟩ := s
    unfold portInv at hinv ⊢
    unfold exitCtx
    dsimp only at hinv ⊢
    by_cases hd : d - 1 = 0
    · simp [hd]
    · cases po <;> simp_all <;> omega

/-- Witness for C2 at the initial state. -/
theorem c2_scoped_acquisition_witness :
    portInv initLS ∧ portInv (enterCtx true initLS).2 :=
  ⟨by unfold portInv initLS; simp,
   (c2_scoped_acquisition initLS (by unfold portInv initLS; simp)
      (Or.inl rfl)).1.1 true⟩

/-- A successful `query` consumes the head reply, logs the message, and
returns the stripped reply. -/
theorem query_eq (s : LS) (m : String) (hd : s.context_depth ≠ 0)
    (hc : s.connection_error = false) (r : String) (rest : List String)
    (hp : s.pending = r :: rest) (hlen : r.length ≠ 0) :
    query m s = (.ok (pyStrip r), {s with sent := s.sent ++ [m], pending := rest}) := by
  unfold query
  rw [if_neg hd, hc, hp]
  simp [hlen]

/-- A stripped-nonempty string is nonempty. -/
theorem length_ne_zero_of_pyStrip {r : String} (h : (pyStrip r).isEmpty = false) :
    r.length ≠ 0 := by
  intro hlen
  have hr : r = "" := by
    obtain ⟨l⟩ := r
    have hl : l = [] := List.length_eq_zero.mp hlen
    subst hl
    rfl
  rw [hr] at h
  exact absurd h (by decide)

/-- **C8.** A `query` issued (inside a scope) while the connection is marked
faulted fails immediately with `ConnectionError` and leaves the state — in
particular the wire log `sent` and the reply stream `pending` — completely
untouched: nothing is written to or read from the port. -/
theorem c8_query_faulted (s : LS) (m : String) (hd : s.context_depth ≠ 0)
    (hc : s.connection_error = true) :
    query m s = (.error .connectionError, s) := by
  unfold query
  rw [if_neg hd, hc]
  simp

/-- A faulted in-scope state with a reply available, for the C8 witness. -/
def faultedStage : LS :=
  { initLS with context_depth := 1, connection_error := true, pending := ["1$1\r"] }

/-- Witness for C8. -/
theorem c8_query_faulted_witness :
    query "#1$" faultedStage = (.error .connectionError, faultedStage) :=
  c8_query_faulted faultedStage "#1$" (by decide) rfl

/-- **C7.** `command` classifies every reply whose stripped form is nonempty
by the trailing-`?` rule: it returns `False` exactly when the stripped reply
ends in `'?'` and `True` otherwise, never raising on a rejection; it raises
only when the underlying `query` fails (faulted connection →
`ConnectionError`, no reply → `TimeoutError`). -/
theorem c7_command_trailing_questionmark :
    (∀ (s : LS) (m r : String) (rest : List String),
      s.context_depth ≠ 0 → s.connection_error = false →
      s.pending = r :: rest → (pyStrip r).isEmpty = false →
      command m s = (.ok ((pyStrip r).back != '?'),
        {s with sent := s.sent ++ [m], pending := rest})) ∧
    (∀ (s : LS) (m : String), s.context_depth ≠ 0 → s.connection_error = true →
      (command m s).1 = .error .connectionError) ∧
    (∀ (s : LS) (m : String), s.context_depth ≠ 0 → s.connection_error = false →
      s.pending = [] → (command m s).1 = .error .timeoutError) := by
  refine ⟨?_, ?_, ?_⟩
  · intro s m r rest hd hc hp hne
    unfold command
    rw [query_eq s m hd hc r rest hp (length_ne_zero_of_pyStrip hne)]
    dsimp only
    rw [hne]
    by_cases hq : (pyStrip r).back = '?'
    · simp [hq]
    · simp [hq, bne]
  · intro s m hd hc
    unfold command query
    rw [if_neg hd, hc]
    simp
  · intro s m hd hc hp
    unfold command query
    rw [if_neg hd, hc, hp]
    simp

/-- In-scope state about to receive an accepting reply. -/
def acceptStage : LS := { initLS with context_depth := 1, pending := ["1p2\r"] }

/-- In-scope state about to receive a rejecting reply. -/
def rejectStage : LS := { initLS with context_depth := 1, pending := ["1p9?\r"] }

/-- In-scope state with no reply available (read timeout). -/
def silentStage : LS := { initLS with context_depth := 1 }

/-- Witness for C7: an accepted reply, a rejected reply, a faulted query,
and an empty reply stream. -/
theorem c7_command_trailing_questionmark_witness :
    command "#1p2" acceptStage
      = (.ok true, { acceptStage with pending := [], sent := ["#1p2"] }) ∧
    command "#1p9" rejectStage
      = (.ok false, { rejectStage with pending := [], sent := ["#1p9"] }) ∧
    (command "#1A" faultedStage).1 = .error .connectionError ∧
    (command "#1A" silentStage).1 = .error .timeoutError := by
  refine ⟨?_, ?_, ?_, ?_⟩
  · exact c7_command_trailing_questionmark.1 acceptStage "#1p2" "1p2\r" []
      (by decide) rfl rfl rfl
  · exact c7_command_trailing_questionmark.1 rejectStage "#1p9" "1p9?\r" []
      (by decide) rfl rfl rfl
  · exact c7_command_trailing_questionmark.2.1 faultedStage "#1A" (by decide) rfl
  · exact c7_command_trailing_questionmark.2.2 silentStage "#1A" (by decide) rfl rfl

/-- **C10.** When the status reply is a rejection (ends in `'?'`),
`fetch_status` returns `None` and leaves the stored `_status` word and
`_positioning_error` flag exactly as they were (the post-state differs from
the pre-state only by the consumed reply and the logged query), and
`is_control_ready` computed from such a fetch returns `False` instead of
raising. -/
theorem c10_rejected_status_frame (s : LS) (r : String) (rest : List String)
    (hd : s.context_depth ≠ 0) (hc : s.connection_error = false)
    (hp : s.pending = r :: rest) (hne : (pyStrip r).isEmpty = false)
    (hq : (pyStrip r).back = '?') :
    fetch_status s = (.ok none, {s with sent := s.sent ++ ["#1$"], pending := rest}) ∧
    is_control_ready s = (.ok false, {s with sent := s.sent ++ ["#1$"], pending := rest}) := by
  have hfetch : fetch_status s
      = (.ok none, {s with sent := s.sent ++ ["#1$"], pending := rest}) := by
    unfold fetch_status
    rw [query_eq s "#1$" hd hc r rest hp (length_ne_zero_of_pyStrip hne)]
    dsimp only
    rw [hne]
    unfold decodeStatus
    rw [hq]
    simp
  refine ⟨hfetch, ?_⟩
  unfold is_control_ready
  rw [hfetch]

/-- In-scope state with stale stored error state, about to receive a
rejected status reply. -/
def staleStatusStage : LS :=
  { initLS with context_depth := 1, pending := ["1$?\r"], status := 5, positioning_error := 1 }

/-- Witness for C10: the stale `_status = 5`, `_positioning_error = 1`
survive the rejected fetch unchanged. -/
theorem c10_rejected_status_frame_witness :
    fetch_status staleStatusStage
      = (.ok none, { staleStatusStage with pending := [], sent := ["#1$"] }) ∧
    is_control_ready staleStatusStage
      = (.ok false, { staleStatusStage with pending := [], sent := ["#1$"] }) :=
  c10_rejected_status_frame staleStatusStage "1$?\r" [] (by decide) rfl rfl rfl rfl

/-- In-scope state whose device will answer the referencing query with
"not referenced" (`...0`). -/
def unreferencedStage : LS :=
  { initLS with context_depth := 1, pending := ["1:is_referenced0\r"] }

/-- Second copy of the unreferenced scenario (fresh reply stream) for the
`move_absolute_mm` half of the C3 witness. -/
def unreferencedStageMm : LS :=
  { initLS with context_depth := 1, pending := ["1:is_referenced0\r"] }

/-- **C3 counterexample.**  With the reference invalid (device reply
`"1:is_referenced0"`), `move_absolute` does **not** fail with
`MotorNotReferencedError`: it logs and returns normally (`.ok ()`), having
sent only the `#1:is_referenced` probe and no motion command. -/
theorem c3_counterexample :
    (is_referenced unreferencedStage).1 = .ok false ∧
    (move_absolute 1000 4000 unreferencedStage).1 = .ok () ∧
    (move_absolute 1000 4000 unreferencedStage).2.sent = ["#1:is_referenced"] :=
  ⟨rfl, rfl, rfl⟩

/-- **C3 (amended).** While the reference is invalid (`is_referenced`
evaluates to `False`), `move_absolute` returns silently — without raising
`MotorNotReferencedError` — and sends no motion command (the only wire
traffic is the `#1:is_referenced` probe itself); the millimeter wrapper
`move_absolute_mm` is the call that raises `MotorNotReferencedError`, and
it does so before sending anything beyond its own referencing probe. -/
theorem c3_amended_not_referenced :
    (∀ (s : LS) (steps speed : ℤ),
      (is_referenced s).1 = .ok false →
      move_absolute steps speed s = (.ok (), (is_referenced s).2)) ∧
    (∀ (s : LS) (pos sp : ℚ),
      (is_referenced s).1 = .ok false →
      move_absolute_mm pos sp s = (.error .motorNotReferencedError, (is_referenced s).2)) := by
  constructor
  · intro s steps speed h
    unfold move_absolute
    rcases hp : is_referenced s with ⟨v, s1⟩
    rw [hp] at h
    dsimp only at h ⊢
    subst h
    rfl
  · intro s pos sp h
    unfold move_absolute_mm
    rcases hp : is_referenced s with ⟨v, s1⟩
    rw [hp] at h
    dsimp only at h ⊢
    subst h
    rfl

/-- Witness for the amended C3 at the concrete unreferenced scenario. -/
theorem c3_amended_not_referenced_witness :
    move_absolute 1000 4000 unreferencedStage
      = (.ok (), (is_referenced unreferencedStage).2) ∧
    move_absolute_mm 10 3 unreferencedStageMm
      = (.error .motorNotReferencedError, (is_referenced unreferencedStageMm).2) :=
  ⟨c3_amended_not_referenced.1 unreferencedStage 1000 4000 rfl,
   c3_amended_not_referenced.2 unreferencedStageMm 10 3 rfl⟩

/-- In-scope state whose device will answer the referencing query with
"referenced" (`...1`). -/
def referencedStage : LS :=
  { initLS with context_depth := 1, pending := ["1:is_referenced1\r"] }

/-- **C4 counterexample.**  `move_absolute(60000, ...)` does not raise any
out-of-range error — it returns normally — and the number of wire writes is
one, not zero: the `is_referenced` probe runs (and is answered) before the
range check. -/
theorem c4_counterexample :
    (move_absolute 60000 4000 referencedStage).1 = .ok () ∧
    (move_absolute 60000 4000 referencedStage).2.sent = ["#1:is_referenced"] ∧
    (move_absolute 60000 4000 referencedStage).2.sent ≠ [] :=
  ⟨rfl, rfl, by decide⟩

/-- **C4 (amended).** With a valid reference, a `move_absolute` whose step
argument violates `|steps| ≤ 50000` returns silently (no exception; the
source only logs), sends no motion command, and the only wire write of the
call is the `#1:is_referenced` probe issued before validation. -/
theorem c4_amended_out_of_range (s : LS) (steps speed : ℤ)
    (href : (is_referenced s).1 = .ok true) (hrange : 50000 < |steps|) :
    move_absolute steps speed s = (.ok (), (is_referenced s).2) := by
  unfold move_absolute
  rcases hp : is_referenced s with ⟨v, s1⟩
  rw [hp] at href
  dsimp only at href ⊢
  subst href
  simp [hrange, not_le.mpr hrange]

/-- Witness for the amended C4 at `steps = 60000`. -/
theorem c4_amended_out_of_range_witness :
    move_absolute 60000 4000 referencedStage
      = (.ok (), (is_referenced referencedStage).2) :=
  c4_amended_out_of_range referencedStage 60000 4000 rfl (by norm_num)

/-- Evaluation of `fetch_status` on a decodable head reply. -/
theorem fetch_status_eq (s : LS) (hd : s.context_depth ≠ 0)
    (hc : s.connection_error = false) (r : String) (rest : List String)
    (hp : s.pending = r :: rest) (hne : (pyStrip r).isEmpty = false)
    (v : ℕ) (hdec : decodeStatus (pyStrip r) = .ok (some v)) :
    fetch_status s = (.ok (some (v &&& 15)),
      {s with sent := s.sent ++ ["#1$"], pending := rest, status := v &&& 15, positioning_error := ((v &&& 15) &&& 4) >>> 2}) := by
  unfold fetch_status
  rw [query_eq s "#1$" hd hc r rest hp (length_ne_zero_of_pyStrip hne)]
  dsimp only
  rw [hne, hdec]
  simp

/-- Running the `wait_movement` polling loop over `n` not-ready statuses
(`"1$0"`) followed by a positioning-error status (`"1$4"`): the loop exits
with status 4 after `n + 1` fetches. -/
theorem waitLoop_run (n : ℕ) : ∀ (fuel : ℕ) (s : LS) (rest : List String),
    s.context_depth ≠ 0 → s.connection_error = false →
    s.pending = List.replicate n "1$0\r" ++ "1$4\r" :: rest → n + 1 ≤ fuel →
    waitLoop fuel s = (.ok 4,
      {s with pending := rest, sent := s.sent ++ List.replicate (n+1) "#1$", status := 4, positioning_error := 1}) := by
  induction n with
  | zero =>
    intro fuel s rest hd hc hp hf
    obtain ⟨f, rfl⟩ : ∃ f, fuel = f + 1 := ⟨fuel - 1, by omega⟩
    unfold waitLoop
    rw [fetch_status_eq s hd hc "1$4\r" rest (by simpa using hp) rfl 4 rfl]
    dsimp only
    have h415 : (4 : ℕ) &&& 15 = 4 := by decide
    have h41 : (4 : ℕ) &&& 1 = 0 := by decide
    have h44 : (4 : ℕ) &&& 4 = 4 := by decide
    have h42 : (4 : ℕ) >>> 2 = 1 := by decide
    simp only [h415, h41, h44, h42]
    norm_num
  | succ k ih =>
    intro fuel s rest hd hc hp hf
    obtain ⟨f, rfl⟩ : ∃ f, fuel = f + 1 := ⟨fuel - 1, by omega⟩
    unfold waitLoop
    rw [List.replicate_succ, List.cons_append] at hp
    rw [fetch_status_eq s hd hc "1$0\r" (List.replicate k "1$0\r" ++ "1$4\r" :: rest)
      hp rfl 0 rfl]
    dsimp only
    rw [if_pos (by decide : ((0:ℕ) &&& 15) &&& 1 = 0 ∧ ((0:ℕ) &&& 15) &&& 4 = 0)]
    rw [ih f _ rest (by exact hd) (by exact hc) (by simp) (by omega)]
    simp [List.replicate_succ, List.append_assoc, List.cons_append]

/-- The C6 scenario: not-ready, not-ready, ready. -/
def threeStatusStage : LS :=
  { initLS with context_depth := 1, pending := ["1$0\r", "1$0\r", "1$1\r"] }

/-- **C6 counterexample.**  On the status sequence
[not-ready, not-ready, ready], `wait_movement` performs a **fourth** status
fetch (inside `has_positioning_error`, after the polling loop) and, with no
fourth reply available, raises `TimeoutError` instead of returning: the
claim's "exactly 3 status fetches and no raise" fails. -/
theorem c6_counterexample :
    (wait_movement threeStatusStage).1 = .error .timeoutError ∧
    (wait_movement threeStatusStage).2.sent = ["#1$", "#1$", "#1$", "#1$"] :=
  ⟨rfl, rfl⟩

/-- The C6 scenario extended by a fourth (ready, no-error) reply. -/
def fourStatusStage : LS :=
  { initLS with context_depth := 1, pending := ["1$0\r", "1$0\r", "1$1\r", "1$1\r"] }

/-- **C6 (amended).** Given [not-ready, not-ready, ready] and a fourth
status reply for the trailing `has_positioning_error` re-check (still ready,
no error), `wait_movement` returns without raising after exactly **4**
status fetches — three in the polling loop plus one in the positioning-error
check. -/
theorem c6_amended_four_fetches :
    wait_movement fourStatusStage
      = (.ok (), { fourStatusStage with pending := [], sent := ["#1$", "#1$", "#1$", "#1$"], status := 1, positioning_error := 0 }) :=
  rfl

/-- The C5 scenario: not-ready, then the positioning-error bit, which stays
latched on the device for the follow-up fetch. -/
def errorStatusStage : LS :=
  { initLS with context_depth := 1, pending := ["1$0\r", "1$4\r", "1$4\r"] }

/-- **C5 counterexample.**  On a status sequence whose positioning-error bit
becomes set before the ready bit, `wait_movement` returns without raising —
but it does **not** clear the latched positioning error (the stored flag is
still 1 afterwards) and it issues **zero** error-clear commands: the wire
log holds only the three `#1$` status queries, no `#1C`/`#1D` exchange (the
`clear_positioning_error()` call in `wait_movement` is commented out). -/
theorem c5_counterexample :
    (wait_movement errorStatusStage).1 = .ok () ∧
    (wait_movement errorStatusStage).2.positioning_error = 1 ∧
    (wait_movement errorStatusStage).2.sent = ["#1$", "#1$", "#1$"] ∧
    (wait_movement errorStatusStage).2.reference_changed = true :=
  ⟨rfl, rfl, rfl, rfl⟩

/-- **C5 (amended).** For every status sequence of `n` not-ready words
followed by a latched positioning-error word, `wait_movement` returns
without raising, leaves the latched positioning-error flag set, issues no
error-clear command (the wire receives only the `n + 2` status queries),
and sets the reference-changed flag so that re-referencing is required. -/
theorem c5_amended_error_not_cleared (n : ℕ) (s : LS)
    (hd : s.context_depth ≠ 0) (hc : s.connection_error = false)
    (hp : s.pending = List.replicate n "1$0\r" ++ ["1$4\r", "1$4\r"]) :
    wait_movement s = (.ok (),
      {s with pending := [], sent := s.sent ++ List.replicate (n+2) "#1$", status := 4, positioning_error := 1, reference_changed := true}) := by
  unfold wait_movement
  have hlen : s.pending.length + 1 = n + 3 := by rw [hp]; simp
  rw [hlen]
  rw [waitLoop_run n (n+3) s ["1$4\r"] hd hc (by rw [hp]) (by omega)]
  dsimp only
  unfold has_positioning_error
  rw [fetch_status_eq _ (by exact hd) (by exact hc) "1$4\r" [] rfl rfl 4 rfl]
  dsimp only
  have h415 : (4 : ℕ) &&& 15 = 4 := by decide
  have h44 : (4 : ℕ) &&& 4 = 4 := by decide
  have h42 : (4 : ℕ) >>> 2 = 1 := by decide
  simp only [h415, h44, h42]
  simp [List.replicate_succ', List.append_assoc]

/-- Witness for the amended C5 at the concrete error scenario (`n = 1`). -/
theorem c5_amended_error_not_cleared_witness :
    wait_movement errorStatusStage = (.ok (),
      { errorStatusStage with pending := [], sent := List.replicate 3 "#1$", status := 4, positioning_error := 1, reference_changed := true }) :=
  c5_amended_error_not_cleared 1 errorStatusStage (by decide) rfl rfl

/-!
### Which operations can touch `_reference_changed`

For claim C9 we check every public operation of the class: only
`set_reference_point` and `wait_movement` can set the flag, and only
`do_referencing` can clear it.
-/

theorem query_rc (m : String) (s : LS) :
    ((query m s).2).reference_changed = s.reference_changed := by
  unfold query
  repeat first | rfl | split

theorem command_rc (m : String) (s : LS) :
    ((command m s).2).reference_changed = s.reference_changed := by
  unfold command
  have h := query_rc m s
  rcases hq : query m s with ⟨r, s1⟩
  rw [hq] at h
  cases r <;> dsimp only <;> (try split) <;> (try split) <;> exact h

theorem commandSeq_rc (ms : List String) : ∀ (s : LS),
    ((commandSeq ms s).2).reference_changed = s.reference_changed := by
  induction ms with
  | nil => intro s; rfl
  | cons m ms ih =>
    intro s
    unfold commandSeq
    have h := command_rc m s
    rcases hq : command m s with ⟨r, s1⟩
    rw [hq] at h
    cases r <;> dsimp only
    · exact h
    · rw [ih s1]; exact h

theorem is_referenced_rc (s : LS) :
    ((is_referenced s).2).reference_changed = s.reference_changed := by
  unfold is_referenced
  have h := query_rc "#1:is_referenced" s
  rcases hq : query "#1:is_referenced" s with ⟨r, s1⟩
  rw [hq] at h
  cases r <;> dsimp only <;> (try split) <;> exact h

theorem read_substeps_rc (s : LS) :
    ((read_substeps s).2).reference_changed = s.reference_changed := by
  unfold read_substeps
  have h := query_rc "#1Zg" s
  rcases hq : query "#1Zg" s with ⟨r, s1⟩
  rw [hq] at h
  cases r <;> dsimp only <;> (try split) <;> exact h

theorem fetch_status_rc (s : LS) :
    ((fetch_status s).2).reference_changed = s.reference_changed := by
  unfold fetch_status
  have h := query_rc "#1$" s
  rcases hq : query "#1$" s with ⟨r, s1⟩
  rw [hq] at h
  cases r <;> dsimp only
  · exact h
  · split
    · exact h
    · split <;> (try split) <;> exact h

theorem is_control_ready_rc (s : LS) :
    ((is_control_ready s).2).reference_changed = s.reference_changed := by
  unfold is_control_ready
  have h := fetch_status_rc s
  rcases hq : fetch_status s with ⟨r, s1⟩
  rw [hq] at h
  rcases r with e | v
  · exact h
  · cases v <;> exact h

theorem has_positioning_error_rc (s : LS) :
    ((has_positioning_error s).2).reference_changed = s.reference_changed := by
  unfold has_positioning_error
  have h := fetch_status_rc s
  rcases hq : fetch_status s with ⟨r, s1⟩
  rw [hq] at h
  cases r <;> exact h

theorem clear_positioning_error_rc (reset : Bool) (s : LS) :
    ((clear_positioning_error reset s).2).reference_changed = s.reference_changed := by
  unfold clear_positioning_error
  dsimp only
  split
  · have h := query_rc "#1D0" {s with positioning_error := 0}
    rcases hq : query "#1D0" {s with positioning_error := 0} with ⟨r, s1⟩
    rw [hq] at h
    cases r <;> exact h
  · have h := query_rc "#1C" {s with positioning_error := 0}
    rcases hq : query "#1C" {s with positioning_error := 0} with ⟨r, s1⟩
    rw [hq] at h
    rcases r with e | ans
    · exact h
    · dsimp only
      have h2 := query_rc ("#1D" ++ ans.drop 2) s1
      rcases hq2 : query ("#1D" ++ ans.drop 2) s1 with ⟨r2, s2⟩
      rw [hq2] at h2
      cases r2 <;> dsimp only <;> rw [h2] <;> exact h

theorem waitLoop_rc (fuel : ℕ) : ∀ (s : LS),
    ((waitLoop fuel s).2).reference_changed = s.reference_changed := by
  induction fuel with
  | zero => intro s; rfl
  | succ f ih =>
    intro s
    unfold waitLoop
    have h := fetch_status_rc s
    rcases hq : fetch_status s with ⟨r, s1⟩
    rw [hq] at h
    rcases r with e | v
    · exact h
    · rcases v with _ | st
      · exact h
      · dsimp only
        split
        · rw [ih s1]; exact h
        · exact h

theorem get_position_rc (s : LS) :
    ((get_position s).2).reference_changed = s.reference_changed := by
  unfold get_position
  have h := query_rc "#1C" s
  rcases hq : query "#1C" s with ⟨r, s1⟩
  rw [hq] at h
  cases r <;> dsimp only <;> (try split) <;> (try split) <;> exact h

theorem stop_rc (s : LS) :
    ((stop s).2).reference_changed = s.reference_changed := by
  unfold stop
  have h := command_rc "#1S" s
  rcases hq : command "#1S" s with ⟨r, s1⟩
  rw [hq] at h
  cases r <;> exact h

theorem stop_soft_rc (s : LS) :
    ((stop_soft s).2).reference_changed = s.reference_changed := by
  unfold stop_soft
  have h := command_rc "#1S1" s
  rcases hq : command "#1S1" s with ⟨r, s1⟩
  rw [hq] at h
  cases r <;> exact h

theorem move_relative_rc (steps speed : ℤ) (s : LS) :
    ((move_relative steps speed s).2).reference_changed = s.reference_changed := by
  unfold move_relative
  split
  · rfl
  · exact commandSeq_rc _ s

theorem move_absolute_rc (steps speed : ℤ) (s : LS) :
    ((move_absolute steps speed s).2).reference_changed = s.reference_changed := by
  unfold move_absolute
  have h := is_referenced_rc s
  rcases hq : is_referenced s with ⟨r, s1⟩
  rw [hq] at h
  rcases r with e | b
  · exact h
  · dsimp only
    split
    · exact h
    · split
      · exact h
      · rw [commandSeq_rc _ s1]; exact h

theorem move_relative_mm_rc (d sp : ℚ) (s : LS) :
    ((move_relative_mm d sp s).2).reference_changed = s.reference_changed :=
  move_relative_rc _ _ s

theorem move_absolute_mm_rc (p sp : ℚ) (s : LS) :
    ((move_absolute_mm p sp s).2).reference_changed = s.reference_changed := by
  unfold move_absolute_mm
  have h := is_referenced_rc s
  rcases hq : is_referenced s with ⟨r, s1⟩
  rw [hq] at h
  rcases r with e | b
  · exact h
  · dsimp only
    split
    · exact h
    · rw [move_absolute_rc _ _ s1]; exact h

theorem move_inf_start_rc (dest speed : ℤ) (s : LS) :
    ((move_inf_start dest speed s).2).reference_changed = s.reference_changed :=
  commandSeq_rc _ s

theorem enterCtx_rc (ok : Bool) (s : LS) :
    ((enterCtx ok s).2).reference_changed = s.reference_changed := by
  unfold enterCtx
  repeat first | rfl | split

theorem exitCtx_rc (e : Bool) (s : LS) :
    ((exitCtx e s).2).reference_changed = s.reference_changed := by
  unfold exitCtx
  dsimp only
  repeat first | rfl | split

theorem close_port_rc (s : LS) :
    (close_port s).reference_changed = s.reference_changed := rfl

theorem set_soft_ramp_rc (ok : Bool) (s : LS) :
    ((set_soft_ramp ok s).2).reference_changed = s.reference_changed := by
  unfold set_soft_ramp
  have h := enterCtx_rc ok s
  rcases hq : enterCtx ok s with ⟨r, s1⟩
  rw [hq] at h
  rcases r with e | b
  · exact h
  · dsimp only
    have h2 := commandSeq_rc ["#1:ramp_mode=+1", "#1:decelquick=+3000000",
      "#1:accel=+10000", "#1:decel=+10000"] s1
    rcases hq2 : commandSeq ["#1:ramp_mode=+1", "#1:decelquick=+3000000",
      "#1:accel=+10000", "#1:decel=+10000"] s1 with ⟨r2, s2⟩
    rw [hq2] at h2
    cases r2 <;> dsimp only <;> rw [exitCtx_rc] <;> rw [h2] <;> exact h

theorem set_quick_ramp_rc (ok : Bool) (s : LS) :
    ((set_quick_ramp ok s).2).reference_changed = s.reference_changed := by
  unfold set_quick_ramp
  have h := enterCtx_rc ok s
  rcases hq : enterCtx ok s with ⟨r, s1⟩
  rw [hq] at h
  rcases r with e | b
  · exact h
  · dsimp only
    have h2 := commandSeq_rc ["#1:ramp_mode=+0", "#1:decelquick=+3000000",
      "#1:accel=+50000", "#1:decel=+50000"] s1
    rcases hq2 : commandSeq ["#1:ramp_mode=+0", "#1:decelquick=+3000000",
      "#1:accel=+50000", "#1:decel=+50000"] s1 with ⟨r2, s2⟩
    rw [hq2] at h2
    cases r2 <;> dsimp only <;> rw [exitCtx_rc] <;> rw [h2] <;> exact h

theorem reset_connection_rc (ok : Bool) (s : LS) :
    ((reset_connection ok s).2).reference_changed = s.reference_changed := by
  unfold reset_connection
  split
  · rfl
  · dsimp only
    have h := enterCtx_rc ok {s with connection_error := false}
    rcases hq : enterCtx ok {s with connection_error := false} with ⟨r, s1⟩
    rw [hq] at h
    rcases r with e | b
    · exact h
    · dsimp only
      have h2 := is_control_ready_rc s1
      rcases hq2 : is_control_ready s1 with ⟨r2, s2⟩
      rw [hq2] at h2
      cases r2 <;> dsimp only <;> rw [exitCtx_rc] <;> rw [h2] <;> exact h

/-- `wait_movement` never clears the flag: it preserves `_reference_changed
= true` (it may additionally set it on a positioning error). -/
theorem wait_movement_rc_true (s : LS) (h : s.reference_changed = true) :
    ((wait_movement s).2).reference_changed = true := by
  unfold wait_movement
  have h1 := waitLoop_rc (s.pending.length + 1) s
  rcases hq : waitLoop (s.pending.length + 1) s with ⟨r, s1⟩
  rw [hq] at h1
  rcases r with e | v
  · rw [h1]; exact h
  · dsimp only
    have h2 := has_positioning_error_rc s1
    rcases hq2 : has_positioning_error s1 with ⟨r2, s2⟩
    rw [hq2] at h2
    rcases r2 with e2 | b2
    · rw [h2, h1]; exact h
    · dsimp only
      split
      · rfl
      · rw [h2, h1]; exact h

/-- Every public operation of `LinearStageControl` that runs on a state
(the environment arguments `openOk` stand for the outcome of the physical
port open where one occurs). -/
inductive Op where
  | opEnter (openOk : Bool)
  | opExit (exc : Bool)
  | opClosePort
  | opQuery (m : String)
  | opCommand (m : String)
  | opIsReferenced
  | opReadSubsteps
  | opFetchStatus
  | opIsControlReady
  | opHasPositioningError
  | opClearPositioningError (reset : Bool)
  | opWaitMovement
  | opStop
  | opStopSoft
  | opSetReferencePoint (r : String)
  | opDoReferencing
  | opMoveRelative (steps speed : ℤ)
  | opMoveAbsolute (steps speed : ℤ)
  | opMoveRelativeMm (d sp : ℚ)
  | opMoveAbsoluteMm (p sp : ℚ)
  | opMoveInfStart (dest speed : ℤ)
  | opGetPosition
  | opSetSoftRamp (openOk : Bool)
  | opSetQuickRamp (openOk : Bool)
  | opResetConnection (openOk : Bool)
deriving DecidableEq

/-- The state reached by running one operation (discarding its result). -/
def opState : Op → LS → LS
  | .opEnter ok, s => (enterCtx ok s).2
  | .opExit e, s => (exitCtx e s).2
  | .opClosePort, s => close_port s
  | .opQuery m, s => (query m s).2
  | .opCommand m, s => (command m s).2
  | .opIsReferenced, s => (is_referenced s).2
  | .opReadSubsteps, s => (read_substeps s).2
  | .opFetchStatus, s => (fetch_status s).2
  | .opIsControlReady, s => (is_control_ready s).2
  | .opHasPositioningError, s => (has_positioning_error s).2
  | .opClearPositioningError r, s => (clear_positioning_error r s).2
  | .opWaitMovement, s => (wait_movement s).2
  | .opStop, s => (stop s).2
  | .opStopSoft, s => (stop_soft s).2
  | .opSetReferencePoint r, s => set_reference_point r s
  | .opDoReferencing, s => (do_referencing s).2
  | .opMoveRelative a b, s => (move_relative a b s).2
  | .opMoveAbsolute a b, s => (move_absolute a b s).2
  | .opMoveRelativeMm a b, s => (move_relative_mm a b s).2
  | .opMoveAbsoluteMm a b, s => (move_absolute_mm a b s).2
  | .opMoveInfStart a b, s => (move_inf_start a b s).2
  | .opGetPosition, s => (get_position s).2
  | .opSetSoftRamp ok, s => (set_soft_ramp ok s).2
  | .opSetQuickRamp ok, s => (set_quick_ramp ok s).2
  | .opResetConnection ok, s => (reset_connection ok s).2

/-- **C9.** `set_reference_point` invalidates the reference calibration:
(1) after it, `is_referenced` answers `False` whenever it answers at all,
regardless of the device's reply; (2) no operation of the class other than
`do_referencing` can take `_reference_changed` from `true` back to `false`;
(3) a `do_referencing` that completes without a transport error clears the
flag; and (4) `is_referenced` can answer `True` only while the flag is
clear. -/
theorem c9_reference_invalidation :
    (∀ (s : LS) (r : String) (b : Bool) (s2 : LS),
      is_referenced (set_reference_point r s) = (.ok b, s2) → b = false) ∧
    (∀ (op : Op) (s : LS), op ≠ .opDoReferencing →
      s.reference_changed = true → (opState op s).reference_changed = true) ∧
    (∀ (s s2 : LS) (u : Unit), do_referencing s = (.ok u, s2) →
      s2.reference_changed = false) ∧
    (∀ (s s2 : LS), is_referenced s = (.ok true, s2) →
      s.reference_changed = false) := by
  refine ⟨?_, ?_, ?_, ?_⟩
  · intro s r b s2 h
    have hrc := query_rc "#1:is_referenced" (set_reference_point r s)
    unfold is_referenced at h
    rcases hq : query "#1:is_referenced" (set_reference_point r s) with ⟨v, s1⟩
    rw [hq] at h hrc
    rcases v with e | ans
    · exact absurd h (by simp)
    · dsimp only at h
      split at h
      · exact absurd h (by simp)
      · have hb : b = (ans.back = '1' ∧ s1.reference_changed = false : Bool) := by
          injection h with h1 h2
          injection h1 with h1
          exact h1.symm
        have hs1 : s1.reference_changed = true := by
          rw [hrc]; rfl
        rw [hb, hs1]
        simp
  · intro op s hne h
    cases op with
    | opEnter ok => rw [opState, enterCtx_rc]; exact h
    | opExit e => rw [opState, exitCtx_rc]; exact h
    | opClosePort => rw [opState, close_port_rc]; exact h
    | opQuery m => rw [opState, query_rc]; exact h
    | opCommand m => rw [opState, command_rc]; exact h
    | opIsReferenced => rw [opState, is_referenced_rc]; exact h
    | opReadSubsteps => rw [opState, read_substeps_rc]; exact h
    | opFetchStatus => rw [opState, fetch_status_rc]; exact h
    | opIsControlReady => rw [opState, is_control_ready_rc]; exact h
    | opHasPositioningError => rw [opState, has_positioning_error_rc]; exact h
    | opClearPositioningError r => rw [opState, clear_positioning_error_rc]; exact h
    | opWaitMovement => rw [opState]; exact wait_movement_rc_true s h
    | opStop => rw [opState, stop_rc]; exact h
    | opStopSoft => rw [opState, stop_soft_rc]; exact h
    | opSetReferencePoint r => rw [opState]; rfl
    | opDoReferencing => exact absurd rfl hne
    | opMoveRelative a b => rw [opState, move_relative_rc]; exact h
    | opMoveAbsolute a b => rw [opState, move_absolute_rc]; exact h
    | opMoveRelativeMm a b => rw [opState, move_relative_mm_rc]; exact h
    | opMoveAbsoluteMm a b => rw [opState, move_absolute_mm_rc]; exact h
    | opMoveInfStart a b => rw [opState, move_inf_start_rc]; exact h
    | opGetPosition => rw [opState, get_position_rc]; exact h
    | opSetSoftRamp ok => rw [opState, set_soft_ramp_rc]; exact h
    | opSetQuickRamp ok => rw [opState, set_quick_ramp_rc]; exact h
    | opResetConnection ok => rw [opState, reset_connection_rc]; exact h
  · intro s s2 u h
    unfold do_referencing at h
    rcases hq : commandSeq ["#1p4", "#1l5154",
        (if s.reference_point = "near" then "#1d1" else "#1d0"),
        "#1o4000", "#1A"] s with ⟨v, s1⟩
    rw [hq] at h
    rcases v with e | w
    · exact absurd h (by simp)
    · dsimp only at h
      injection h with h1 h2
      rw [← h2]
  · intro s s2 h
    have hrc := query_rc "#1:is_referenced" s
    unfold is_referenced at h
    rcases hq : query "#1:is_referenced" s with ⟨v, s1⟩
    rw [hq] at h hrc
    rcases v with e | ans
    · exact absurd h (by simp)
    · dsimp only at h
      split at h
      · exact absurd h (by simp)
      · have hb : (true : Bool) = (ans.back = '1' ∧ s1.reference_changed = false : Bool) := by
          injection h with h1 h2
          injection h1 with h1
          exact h1.symm
        have hand : ans.back = '1' ∧ s1.reference_changed = false :=
          of_decide_eq_true hb.symm
        rw [← hrc]
        exact hand.2

/-- Witness for C9: after `set_reference_point('far')` in a state whose
device would still answer "referenced", `is_referenced` answers `False`;
the complete `do_referencing` run clears the flag again; and `stop` (an
arbitrary other operation) cannot clear it. -/
theorem c9_reference_invalidation_witness :
    ((is_referenced (set_reference_point "far" referencedStage)).1 = .ok false) ∧
    (opState .opStop (set_reference_point "far" referencedStage)).reference_changed
      = true := by
  constructor
  · rfl
  · exact c9_reference_invalidation.2.1 .opStop
      (set_reference_point "far" referencedStage) (by decide) rfl

end LinearStage
